import Mathlib

/-!
Shallow embedding of the hayabusa account-validation layer.

Source files embedded here:
- crates/ser/src/zc.rs                       (zero-copy decode / initialize)
- crates/accounts/src/accounts/checked_address.rs
- crates/accounts/src/accounts/pda.rs
- crates/accounts/src/accounts/system_account.rs
- crates/accounts/src/accounts/zc_account.rs
- crates/context/src/lib.rs                  (AccountIter, Ctx)
- crates/cpi/src/lib.rs                      (CpiCtx)
- crates/instruction-dispatch-macro/src/lib.rs   (dispatch! macro output)
- crates/decode-instruction-derive/src/lib.rs    (DecodeIx derive output)
- examples/counter-program/programs/counter-program/expanded.rs

Bytes are modelled as natural numbers, addresses as abstract identifiers
(naturals compared for equality), and fallible Rust functions returning
`Result<T, ProgramError>` as Lean functions into `Except Err`.
-/

namespace Hayabusa

/-- Account data bytes; only equality and slicing matter to the claims. -/
abbrev Byte := Nat

/-- Opaque fixed-width account address / program identifier, compared only for
equality, modelled as an abstract identifier. -/
abbrev Address := Nat

/-- Error labels. Combines the pinocchio `ProgramError` variants used by the
source under src/ with the repository `ErrorCode` variants named by the spec
error taxonomy (the file crates/errors/src/error_code.rs is declared by
crates/errors/src/lib.rs but absent from src/). Errors are compared as labels. -/
inductive Err where
  | invalidAccount
  | invalidAccountOwner
  | invalidAccountData
  | incorrectProgramId
  | invalidInstructionData
  | unknownInstruction
  | missingRequiredSignature
  | invalidAccountDiscriminator
deriving Repr, DecidableEq

/-- Account Record (`AccountView` / `AccountInfo` from the host layer): address,
owning-program tag, byte buffer, balance, and permission flags. -/
structure AccountView where
  address : Address
  owner : Address
  data : List Byte
  lamports : Nat
  isSigner : Bool
  isWritable : Bool
  executable : Bool
deriving Repr, DecidableEq

/-- Static description of a zero-copy account type `T`: its declared owner
program (`OwnerProgram::OWNER`), its 8-byte discriminator
(`Discriminator::DISCRIMINATOR`), and its fixed byte size
(`core::mem::size_of::<T>()`). The typed view over `T` is modelled as the raw
byte slice `data[8..8+size]` (a `Pod` value is its bytes). -/
structure ZcType where
  owner : Address
  disc : List Byte
  size : Nat
  hdisc : disc.length = 8

/-- Len trait: `DISCRIMINATED_LEN = 8 + size_of::<Self>()`
(crates/utility/src/lib.rs). -/
def ZcType.discriminatedLen (T : ZcType) : Nat := 8 + T.size

/-- Checked read-only zero-copy decode, `try_deserialize_zc` in
crates/ser/src/zc.rs lines 233-266: owner check, borrow, exact-length check,
discriminator check, then cast of `d[8..DISCRIMINATED_LEN]`. The runtime borrow
guard always succeeds here because the record is modelled as plain data with no
outstanding views. -/
def tryDeserializeZc (T : ZcType) (a : AccountView) : Except Err (List Byte) :=
  if T.owner ≠ a.owner then .error .invalidAccountOwner
  else
    let data := a.data
    if data.length ≠ T.discriminatedLen then .error .invalidAccountData
    else
      let discBytes := data.take 8
      if discBytes ≠ T.disc then .error .invalidAccountData
      else .ok ((data.drop 8).take T.size)

/-- Checked mutable zero-copy decode, `try_deserialize_zc_mut` in
crates/ser/src/zc.rs lines 268-301: same checks as the read-only path over a
mutable borrow. -/
def tryDeserializeZcMut (T : ZcType) (a : AccountView) : Except Err (List Byte) :=
  if T.owner ≠ a.owner then .error .invalidAccountOwner
  else
    let data := a.data
    if data.length ≠ T.discriminatedLen then .error .invalidAccountData
    else
      let discBytes := data.take 8
      if discBytes ≠ T.disc then .error .invalidAccountData
      else .ok ((data.drop 8).take T.size)

/-- Raw read-only zero-copy decode, `RawZcDeserialize::try_deserialize_raw` in
crates/ser/src/zc.rs lines 30-54: owner check and exact-length check only, then
cast of `d[8..]`; no discriminator check. -/
def tryDeserializeRaw (T : ZcType) (a : AccountView) : Except Err (List Byte) :=
  if T.owner ≠ a.owner then .error .invalidAccountOwner
  else if a.data.length ≠ T.discriminatedLen then .error .invalidAccountData
  else .ok (a.data.drop 8)

/-- Raw mutable zero-copy decode, `RawZcDeserializeMut::try_deserialize_raw_mut`
in crates/ser/src/zc.rs lines 58-99: same checks as the raw read-only path. -/
def tryDeserializeRawMut (T : ZcType) (a : AccountView) : Except Err (List Byte) :=
  if T.owner ≠ a.owner then .error .invalidAccountOwner
  else if a.data.length ≠ T.discriminatedLen then .error .invalidAccountData
  else .ok (a.data.drop 8)

/-- ZcAccount wrapper construction, `ZcAccount::try_from_account_info` in
crates/accounts/src/accounts/zc_account.rs lines 102-113: stores the record
reference and performs no validation. The wrapper is modelled by the record it
holds. -/
def zcAccountTryFromAccountInfo (a : AccountView) : Except Err AccountView :=
  .ok a

/-- Modelled from the spec: `address_eq` from the `hayabusa_common` crate,
which is absent from src/. It compares two account addresses for equality, per
its name, its use site, and the spec sentence that CheckedAddress succeeds iff
the record's address equals the metadata-supplied expected address. -/
def address_eq (a b : Address) : Bool := a == b

/-- Validation metadata for CheckedAddress: the expected address
(crates/accounts/src/accounts/checked_address.rs lines 113-123). -/
structure CheckedAddressMeta where
  addr : Address

/-- CheckedAddress construction, `CheckedAddress::try_from_account_view` in
crates/accounts/src/accounts/checked_address.rs lines 78-100: the source reads
`if unlikely(address_eq(account_view.address(), meta.addr)) then fail
InvalidAccount`, so it errors exactly when the two addresses are equal, and
otherwise returns the wrapper (modelled by the record it holds). -/
def checkedAddressTryFromAccountView (view : AccountView) (meta : CheckedAddressMeta) :
    Except Err AccountView :=
  if address_eq view.address meta.addr then .error .invalidAccount
  else .ok view

/-- Modelled from the spec: the fixed system program identifier
(`pinocchio_system::ID`), an external host constant compared only for equality,
modelled as a distinguished abstract address. -/
def systemProgramId : Address := 401

/-- SystemAccount construction, `SystemAccount::try_from_account_info` in
crates/accounts/src/accounts/system_account.rs lines 15-28: fails with
`ErrorCode::InvalidAccount` when the record's owner differs from the fixed
system program identifier, otherwise returns the wrapper (modelled by the
record it holds). -/
def systemAccountTryFromAccountInfo (a : AccountView) : Except Err AccountView :=
  if a.owner ≠ systemProgramId then .error .invalidAccount
  else .ok a

/-- Observable events of Pda construction: the unchecked zero-copy cast of the
record's bytes (`FromBytesUnchecked::from_bytes_unchecked`, reached through
`try_deserialize_raw_unchecked`) and the derived-address seed verification
(`CheckSeeds::check_pda_seeds`). -/
inductive PdaEv where
  | castEvent
  | seedCheckEvent
deriving Repr, DecidableEq

/-- Static description of a Pda account type: its zero-copy layout plus its
seed-verification method `check_pda_seeds`, which runs on the typed record
(its bytes), the record's actual address, and the metadata seeds. `CheckSeeds`
lives in the `hayabusa_pda` crate, absent from src/, so the check itself is an
abstract parameter; only its position in the control flow is at issue. -/
structure PdaType (μ : Type) where
  toZcType : ZcType
  checkPdaSeeds : List Byte → Address → μ → Except Err Unit

/-- Event-instrumented `RawZcDeserializeUnchecked::try_deserialize_raw_unchecked`
(crates/ser/src/zc.rs lines 114-138): owner check, exact-length check, then the
unchecked cast of `data[8..]`; the returned trace records the cast. -/
def tryDeserializeRawUncheckedTr (T : ZcType) (a : AccountView) :
    List PdaEv × Except Err (List Byte) :=
  if T.owner ≠ a.owner then ([], .error .invalidAccountOwner)
  else if a.data.length ≠ T.discriminatedLen then ([], .error .invalidAccountData)
  else ([.castEvent], .ok (a.data.drop 8))

/-- Pda construction, `Pda::try_from_account_view` in
crates/accounts/src/accounts/pda.rs lines 21-42: first performs the unchecked
raw deserialize (owner and length checks, then the zero-copy cast), then calls
`check_pda_seeds` on the typed record; returns the wrapper on success. The
event trace records the order in which the cast and the seed check occur. -/
def pdaTryFromAccountView {μ : Type} (T : PdaType μ) (view : AccountView) (meta : μ) :
    List PdaEv × Except Err Unit :=
  match tryDeserializeRawUncheckedTr T.toZcType view with
  | (tr, .error e) => (tr, .error e)
  | (tr, .ok account) =>
    match T.checkPdaSeeds account view.address meta with
    | .error e => (tr ++ [.seedCheckEvent], .error e)
    | .ok _ => (tr ++ [.seedCheckEvent], .ok ())

/-- CpiCtx (crates/cpi/src/lib.rs lines 92-103): the target program record, the
instruction's typed accounts, and optional signer proofs. `α` is the accounts
struct type, `σ` the signer-list type. -/
structure CpiCtx (α σ : Type) where
  program : AccountView
  accounts : α
  signers : Option σ

/-- General CpiCtx constructor, `CpiCtx::try_new` in crates/cpi/src/lib.rs
lines 117-130: `T::check_program_id(program.address())` fails with
IncorrectProgramId when the program record's address differs from T's declared
target identifier `tid` (`CheckProgramId::ID`), then the parts are bundled. -/
def cpiTryNew {α σ : Type} (tid : Address) (program : AccountView) (accounts : α)
    (signers : Option σ) : Except Err (CpiCtx α σ) :=
  if program.address ≠ tid then .error .incorrectProgramId
  else .ok ⟨program, accounts, signers⟩

/-- Convenience constructor `CpiCtx::try_new_without_signer`
(crates/cpi/src/lib.rs lines 148-157): same program-id check, signers = None. -/
def cpiTryNewWithoutSigner {α σ : Type} (tid : Address) (program : AccountView)
    (accounts : α) : Except Err (CpiCtx α σ) :=
  if program.address ≠ tid then .error .incorrectProgramId
  else .ok ⟨program, accounts, none⟩

/-- Convenience constructor `CpiCtx::try_new_with_signer`
(crates/cpi/src/lib.rs lines 181-194): same program-id check,
signers = Some(signers). -/
def cpiTryNewWithSigner {α σ : Type} (tid : Address) (program : AccountView)
    (accounts : α) (signers : σ) : Except Err (CpiCtx α σ) :=
  if program.address ≠ tid then .error .incorrectProgramId
  else .ok ⟨program, accounts, some signers⟩

/-- Sequential consumption cursor over the account list, `AccountIter` in
crates/context/src/lib.rs lines 174-246. The source keeps a current pointer and
a one-past-the-end pointer into the original slice with the invariant
base ≤ ptr ≤ end; this is embedded as the original list plus the index
`pos = ptr - base`, with `ptr == end` becoming `pos = views.length`. -/
structure AccountIter where
  views : List AccountView
  pos : Nat
deriving Repr, DecidableEq

/-- Cursor construction, `AccountIter::new` (crates/context/src/lib.rs lines
190-203): starts at the base of the slice. -/
def AccountIter.new (l : List AccountView) : AccountIter := ⟨l, 0⟩

/-- Cursor step, `AccountIter::next` (crates/context/src/lib.rs lines 205-223):
when the cursor is at the end, fail with InvalidAccount (no accounts
remaining); otherwise return the current record and the advanced cursor. -/
def AccountIter.next (it : AccountIter) : Except Err (AccountView × AccountIter) :=
  if h : it.pos < it.views.length then
    .ok (it.views.get ⟨it.pos, h⟩, ⟨it.views, it.pos + 1⟩)
  else .error .invalidAccount

/-- Unconsumed subslice, `AccountIter::remaining` (crates/context/src/lib.rs
lines 225-238): the records from the cursor to the end, in original order. -/
def AccountIter.remaining (it : AccountIter) : List AccountView :=
  it.views.drop it.pos

/-- Count of unconsumed records, `AccountIter::remaining_len`
(crates/context/src/lib.rs lines 240-246). -/
def AccountIter.remainingLen (it : AccountIter) : Nat :=
  it.views.length - it.pos

/-- Repeated cursor stepping: call `next` the given number of times, collecting
each call's result; a failing call leaves the cursor unchanged. -/
def runNextAux : Nat → AccountIter → List (Except Err AccountView) × AccountIter
  | 0, it => ([], it)
  | n + 1, it =>
    match it.next with
    | .ok (v, it2) =>
      let r := runNextAux n it2
      (.ok v :: r.1, r.2)
    | .error e =>
      let r := runNextAux n it
      (.error e :: r.1, r.2)

/-- Repeated cursor stepping, receiver form. -/
def AccountIter.runNext (it : AccountIter) (n : Nat) :
    List (Except Err AccountView) × AccountIter :=
  runNextAux n it

/-- Shape of one field of a derived instruction-parameter record
(crates/decode-instruction-derive/src/lib.rs): a fixed-size field of the given
byte size (`core::mem::size_of` of its type; PhantomData has size 0), or the
single borrowed byte-slice field whose length is derived as the remainder of
the input. The derive rejects a second slice field at expansion time, so
derivable shapes have at most one slice entry. -/
inductive FieldDesc where
  | fixed (size : Nat)
  | slice
deriving Repr, DecidableEq

/-- Byte size a field contributes to the fixed total. -/
def fieldFixedSize : FieldDesc → Nat
  | .fixed n => n
  | .slice => 0

/-- Sum of the fixed-field sizes, `fixed_total` in expand_decode_ix
(crates/decode-instruction-derive/src/lib.rs lines 128-135). -/
def fixedTotal (shape : List FieldDesc) : Nat :=
  (shape.map fieldFixedSize).sum

/-- Whether the record declares a borrowed byte-slice field
(`slice_field.is_some()` in expand_decode_ix). -/
def hasSlice (shape : List FieldDesc) : Bool :=
  shape.any fun f =>
    match f with
    | .fixed _ => false
    | .slice => true

/-- Number of slice fields declared; expand_decode_ix rejects shapes where this
exceeds one. -/
def sliceCount (shape : List FieldDesc) : Nat :=
  (shape.filter fun f =>
    match f with
    | .fixed _ => false
    | .slice => true).length

/-- Field-by-field decode loop emitted by expand_decode_ix
(crates/decode-instruction-derive/src/lib.rs lines 154-181): fixed fields are
unaligned reads of `size` bytes at the running offset (modelled as the raw
bytes read); the slice field takes `bytes.len() - fixed_total` bytes at the
running offset; the offset advances accordingly. -/
def decodeFields (bytes : List Byte) (total : Nat) :
    List FieldDesc → Nat → List (List Byte)
  | [], _ => []
  | .fixed n :: rest, off =>
    (bytes.drop off).take n :: decodeFields bytes total rest (off + n)
  | .slice :: rest, off =>
    (bytes.drop off).take (bytes.length - total) ::
      decodeFields bytes total rest (off + (bytes.length - total))

/-- Derived `DecodeIx::decode` (crates/decode-instruction-derive/src/lib.rs
lines 137-199): with a slice field the length check is
`bytes.len() < fixed_total` (at-least), without one it is
`bytes.len() != fixed_total` (exact); both fail with InvalidInstructionData;
then the fields are decoded in declaration order. -/
def decodeIx (shape : List FieldDesc) (bytes : List Byte) :
    Except Err (List (List Byte)) :=
  if hasSlice shape then
    if bytes.length < fixedTotal shape then .error .invalidInstructionData
    else .ok (decodeFields bytes (fixedTotal shape) shape 0)
  else
    if bytes.length ≠ fixedTotal shape then .error .invalidInstructionData
    else .ok (decodeFields bytes (fixedTotal shape) shape 0)

/-- Shape of `UpdateCounterIx` from
examples/counter-program/programs/counter-program/expanded.rs lines 23-49:
a u64 `amount` then the trailing byte slice `_s`. Its expanded decode is an
instance of `decodeIx` on this shape. -/
def updateCounterIxShape : List FieldDesc := [.fixed 8, .slice]

/-- Shape of `InitializeCounterIx` from expanded.rs lines 50-66: no fields. -/
def initializeCounterIxShape : List FieldDesc := []

/-- One registered handler arm of the `dispatch!` macro
(crates/instruction-dispatch-macro/src/lib.rs): the instruction type's 8-byte
discriminator, its byte size (`bytemuck::try_from_bytes::<IxTy>` succeeds only
on exactly that many bytes), and the handler continuation (context
construction plus handler body) run on the parameter bytes. -/
structure DispatchArm where
  disc : List Byte
  paramSize : Nat
  run : List Byte → Except Err Unit

/-- Whether an arm's discriminator matches the payload prefix. -/
def armMatches (disc : List Byte) (arm : DispatchArm) : Bool :=
  arm.disc == disc

/-- Instruction dispatch as emitted by the `dispatch!` macro in
crates/instruction-dispatch-macro/src/lib.rs lines 14-43: payloads shorter
than 8 bytes fail with UnknownInstruction; otherwise the 8-byte prefix is
matched against the arms in order (first exact match wins), the matching
arm's parameters are decoded from the remainder (wrong size fails with
InvalidInstructionData) and its handler runs; no match fails with
UnknownInstruction. -/
def dispatchIxData (arms : List DispatchArm) (ixData : List Byte) :
    Except Err Unit :=
  if ixData.length < 8 then .error .unknownInstruction
  else
    let disc := ixData.take 8
    let rest := ixData.drop 8
    match arms.find? (armMatches disc) with
    | some arm =>
      if rest.length ≠ arm.paramSize then .error .invalidInstructionData
      else arm.run rest
    | none => .error .unknownInstruction

/-- Counter program identifier, the `ID` constant of expanded.rs lines 10-12,
modelled as a distinguished abstract address. -/
def counterProgramId : Address := 777

/-- Discriminator of UpdateCounterIx (expanded.rs lines 28-32). -/
def updateCounterDisc : List Byte := [18, 183, 6, 47, 227, 170, 61, 195]

/-- Discriminator of InitializeCounterIx (expanded.rs lines 52-56). -/
def initializeCounterDisc : List Byte := [189, 111, 34, 122, 19, 245, 243, 42]

/-- The `dispatcher` function of the expanded counter program (expanded.rs
lines 92-133): program-id check failing with IncorrectProgramId, then the
payload-length check failing with InvalidInstructionData when shorter than 8
bytes, then discriminator match; each matching arm decodes its parameters
(mapping decode errors to InvalidInstructionData) and runs its handler, which
is abstracted as a continuation on the decoded fields (Ctx::construct plus the
handler body); an unmatched prefix fails with UnknownInstruction. -/
def counterDispatcher (kUpdate kInit : List (List Byte) → Except Err Unit)
    (programId : Address) (ixData : List Byte) : Except Err Unit :=
  if programId ≠ counterProgramId then .error .incorrectProgramId
  else if ixData.length < 8 then .error .invalidInstructionData
  else
    let disc := ixData.take 8
    let rest := ixData.drop 8
    if disc = updateCounterDisc then
      match decodeIx updateCounterIxShape rest with
      | .error _ => .error .invalidInstructionData
      | .ok fields => kUpdate fields
    else if disc = initializeCounterDisc then
      match decodeIx initializeCounterIxShape rest with
      | .error _ => .error .invalidInstructionData
      | .ok fields => kInit fields
    else .error .unknownInstruction

/-- Account pair of the system CreateAccount instruction
(payer and target), per the use in crates/ser/src/zc.rs lines 340-347. -/
structure CreateAccount where
  fromAccount : AccountView
  toAccount : AccountView

/-- Initialization accounts, `InitAccounts` in crates/ser/src/zc.rs lines
303-328: the owning program for the new record, the payer, and the system
program record. -/
structure InitAccounts where
  ownerProgramId : Address
  payerAccount : AccountView
  systemProgram : AccountView

/-- Modelled from the spec: `create_account` from `hayabusa_system_program`,
absent from src/ — the cross-invocation allocation primitive invoked by
try_initialize_zc. Per the spec and the source comment at crates/ser/src/zc.rs
line 339, it fails when the target buffer is already allocated (nonzero
length; the spec taxonomy files already-initialized under InvalidAccountData),
and otherwise grows the target's buffer to exactly `space` zeroed bytes and
assigns the requested owner. -/
def createAccount {σ : Type} (ctx : CpiCtx CreateAccount σ) (owner : Address)
    (space : Nat) : Except Err AccountView :=
  if ctx.accounts.toAccount.data.length ≠ 0 then .error .invalidAccountData
  else .ok { ctx.accounts.toAccount with owner := owner, data := List.replicate space 0 }

/-- Record initialization, `try_initialize_zc` in crates/ser/src/zc.rs lines
330-362: build a CpiCtx for CreateAccount against the system program, invoke
the allocation primitive with space `DISCRIMINATED_LEN`, write T's
discriminator into bytes[0..8], and return the updated record together with
the mutable typed view over bytes[8..DISCRIMINATED_LEN]. -/
def tryInitializeZc {σ : Type} (T : ZcType) (targetAccount : AccountView)
    (init : InitAccounts) (signers : Option σ) :
    Except Err (AccountView × List Byte) :=
  match cpiTryNew systemProgramId init.systemProgram
      (CreateAccount.mk init.payerAccount targetAccount) signers with
  | .error e => .error e
  | .ok ctx =>
    match createAccount ctx init.ownerProgramId T.discriminatedLen with
    | .error e => .error e
    | .ok created =>
      let written := T.disc ++ created.data.drop 8
      .ok ({ created with data := written }, (written.drop 8).take T.size)

/-- Zero-copy description of `CounterAccount` from expanded.rs lines 205-259:
owned by the counter program, 8-byte discriminator [187,192,81,6,110,149,93,2],
fixed size 8 (one u64 field). -/
def counterAccountType : ZcType :=
  ⟨counterProgramId, [187, 192, 81, 6, 110, 149, 93, 2], 8, rfl⟩

/-- Field shape with one byte-slice field in a non-trailing position
(struct { data: &[u8], b: u8 }); accepted by the DecodeIx derive, which
rejects only a second slice field, not a non-final one. -/
def c7Shape : List FieldDesc := [.slice, .fixed 1]

/-- Concrete fresh (zero-length) target record for exercising initialization. -/
def c9Target : AccountView := ⟨55, 0, [], 0, false, true, false⟩

/-- Concrete payer record for exercising initialization. -/
def c9Payer : AccountView := ⟨56, 401, [], 1000, true, true, false⟩

/-- Concrete system-program record (its address is the system program
identifier) for exercising initialization. -/
def c9SysProg : AccountView := ⟨401, 0, [], 0, false, false, true⟩

/-- Concrete initialization accounts: the counter program as owner, with the
payer and system-program records above. -/
def c9Init : InitAccounts := ⟨counterProgramId, c9Payer, c9SysProg⟩

/-- Concrete Pda account type for exercising construction order: owner 3, an
8-byte discriminator, one data byte, and a seed check that always fails. -/
def pdaC2Type : PdaType Unit :=
  ⟨⟨3, [0, 0, 0, 0, 0, 0, 0, 0], 1, rfl⟩, fun _ _ _ => .error .invalidAccount⟩

/-- Concrete record matching pdaC2Type: owned by 3 with a 9-byte buffer, so
the owner and length checks pass. -/
def pdaC2View : AccountView := ⟨9, 3, [0, 0, 0, 0, 0, 0, 0, 0, 5], 0, false, false, false⟩

/-- Unfolding equation for one stepping round. -/
theorem runNextAux_succ (n : Nat) (it : AccountIter) :
    runNextAux (n + 1) it =
      match it.next with
      | .ok (v, it2) =>
        let r := runNextAux n it2
        (.ok v :: r.1, r.2)
      | .error e =>
        let r := runNextAux n it
        (.error e :: r.1, r.2) := rfl

/-- Stepping within bounds: starting at index p with p + n within the list,
n calls all succeed, returning the next n records in order, and leave the
cursor at p + n. -/
theorem runNextAux_in_bounds (l : List AccountView) :
    ∀ (n p : Nat), p + n ≤ l.length →
      runNextAux n ⟨l, p⟩ = (((l.drop p).take n).map Except.ok, ⟨l, p + n⟩) := by
  intro n
  induction n with
  | zero => intro p _; simp [runNextAux]
  | succ n ih =>
    intro p hp
    have hlt : p < l.length := by omega
    have hstep : (⟨l, p⟩ : AccountIter).next = .ok (l.get ⟨p, hlt⟩, ⟨l, p + 1⟩) := by
      simp [AccountIter.next, hlt]
    have hrec := ih (p + 1) (by omega)
    have hdrop : l.drop p = l[p] :: l.drop (p + 1) := List.drop_eq_getElem_cons hlt
    have harith : p + 1 + n = p + (n + 1) := by omega
    rw [runNextAux_succ, hstep]
    dsimp only
    rw [hrec]
    dsimp only
    rw [hdrop, harith]
    simp only [List.take_succ_cons, List.map_cons, List.get_eq_getElem]

/-- Stepping an exhausted cursor: every call fails with InvalidAccount and the
cursor does not move. -/
theorem runNextAux_exhausted (l : List AccountView) (p : Nat) (hp : l.length ≤ p) :
    ∀ n : Nat, runNextAux n ⟨l, p⟩ = (List.replicate n (.error .invalidAccount), ⟨l, p⟩) := by
  intro n
  induction n with
  | zero => simp [runNextAux]
  | succ n ih =>
    have hstep : (⟨l, p⟩ : AccountIter).next = .error .invalidAccount := by
      simp [AccountIter.next]
      omega
    simp [runNextAux, hstep, ih, List.replicate_succ]

/-- Stepping composes: m + n calls are m calls followed by n calls on the
cursor the first m calls produced. -/
theorem runNextAux_add (m n : Nat) :
    ∀ it : AccountIter,
      runNextAux (m + n) it =
        ((runNextAux m it).1 ++ (runNextAux n (runNextAux m it).2).1,
          (runNextAux n (runNextAux m it).2).2) := by
  induction m with
  | zero => intro it; simp [runNextAux]
  | succ m ih =>
    intro it
    have hsucc : m + 1 + n = (m + n) + 1 := by omega
    rw [hsucc]
    cases hstep : it.next with
    | ok vit => simp [runNextAux, hstep, ih]
    | error e => simp [runNextAux, hstep, ih]

/-- After k calls to next, the cursor sits at index min k N. -/
theorem runNext_final_pos (l : List AccountView) (k : Nat) :
    ((AccountIter.new l).runNext k).2 = ⟨l, min k l.length⟩ := by
  show (runNextAux k ⟨l, 0⟩).2 = _
  by_cases hk : k ≤ l.length
  · rw [runNextAux_in_bounds l k 0 (by omega)]
    simp [Nat.min_eq_left hk]
  · have hmin : min k l.length = l.length := by omega
    rw [hmin]
    conv_lhs => rw [show k = l.length + (k - l.length) by omega]
    rw [runNextAux_add, runNextAux_in_bounds l l.length 0 (by omega)]
    dsimp only
    rw [Nat.zero_add, runNextAux_exhausted l l.length (le_refl _) (k - l.length)]

end Hayabusa

namespace Hayabusa

/-- C10: constructing the zero-copy-typed wrapper performs no validation: for
every account record, whatever its owner, length, contents, or flags,
`ZcAccount::try_from_account_info` returns `Ok` with the record; all checks are
deferred to the later deserialize calls. -/
theorem C10_zc_account_construction_unvalidated :
    ∀ a : AccountView, zcAccountTryFromAccountInfo a = .ok a := by
  intro a
  rfl

/-- C3: checked zero-copy decode (read-only and mutable) succeeds iff the owner
matches T's declared owner, the buffer length is exactly `8 + size T`, and the
first 8 bytes equal T's discriminator; an owner mismatch yields
InvalidAccountOwner regardless of buffer contents, and a wrong length or wrong
discriminator with a correct owner yields InvalidAccountData. Raw decode
performs the same owner and exact-length checks with the same errors and skips
only the discriminator check. The mutable variants perform exactly the checks of
their read-only counterparts. -/
theorem C3_zc_decode_characterization :
    ∀ (T : ZcType) (a : AccountView),
      ((tryDeserializeZc T a).isOk ↔
        (T.owner = a.owner ∧ a.data.length = 8 + T.size ∧ a.data.take 8 = T.disc))
      ∧ (tryDeserializeZc T a = .error .invalidAccountOwner ↔ T.owner ≠ a.owner)
      ∧ (tryDeserializeZc T a = .error .invalidAccountData ↔
          (T.owner = a.owner ∧ (a.data.length ≠ 8 + T.size ∨ a.data.take 8 ≠ T.disc)))
      ∧ tryDeserializeZcMut T a = tryDeserializeZc T a
      ∧ ((tryDeserializeRaw T a).isOk ↔
          (T.owner = a.owner ∧ a.data.length = 8 + T.size))
      ∧ (tryDeserializeRaw T a = .error .invalidAccountOwner ↔ T.owner ≠ a.owner)
      ∧ (tryDeserializeRaw T a = .error .invalidAccountData ↔
          (T.owner = a.owner ∧ a.data.length ≠ 8 + T.size))
      ∧ tryDeserializeRawMut T a = tryDeserializeRaw T a := by
  intro T a
  unfold tryDeserializeZc tryDeserializeZcMut tryDeserializeRaw tryDeserializeRawMut
      ZcType.discriminatedLen
  by_cases howner : T.owner = a.owner
  · by_cases hlen : a.data.length = 8 + T.size
    · by_cases hdisc : a.data.take 8 = T.disc
      · simp [howner, hlen, hdisc, Except.isOk, Except.toBool]
      · simp [howner, hlen, hdisc, Except.isOk, Except.toBool]
    · simp [howner, hlen, Except.isOk, Except.toBool]
  · simp [howner, Except.isOk, Except.toBool]

/-- C1 (evaluation of the code at the failing input): when the metadata-supplied
expected address equals the record's address (both 5), CheckedAddress
construction fails with InvalidAccount, and when the expected address differs
(6) it succeeds — the opposite of the claim, because the source tests
`address_eq` where its own `FromAccountView` documentation example in
crates/accounts/src/lib.rs tests inequality. -/
theorem C1_checked_address_code_eval :
    checkedAddressTryFromAccountView ⟨5, 0, [], 0, false, false, false⟩ ⟨5⟩ =
      .error .invalidAccount
    ∧ checkedAddressTryFromAccountView ⟨5, 0, [], 0, false, false, false⟩ ⟨6⟩ =
      .ok ⟨5, 0, [], 0, false, false, false⟩ := by
  exact ⟨rfl, rfl⟩

/-- C5 (counterexample): a record whose owner is not the system program makes
SystemAccount construction fail with the error label InvalidAccount
(`ErrorCode::InvalidAccount` in the source), which is not the InvalidAccountOwner
label the claim names. -/
theorem C5_system_account_error_label_counterexample :
    systemAccountTryFromAccountInfo ⟨1, 402, [], 0, false, false, false⟩ =
      .error .invalidAccount
    ∧ Err.invalidAccount ≠ Err.invalidAccountOwner := by
  exact ⟨rfl, by decide⟩

/-- C5 (amended): SystemAccount construction succeeds, returning the record,
if and only if the record's owner tag equals the fixed system program
identifier, and fails with InvalidAccount (not InvalidAccountOwner) otherwise. -/
theorem C5_system_account_amended :
    ∀ a : AccountView,
      ((systemAccountTryFromAccountInfo a).isOk ↔ a.owner = systemProgramId)
      ∧ (systemAccountTryFromAccountInfo a = .ok a ↔ a.owner = systemProgramId)
      ∧ (systemAccountTryFromAccountInfo a = .error .invalidAccount ↔
          a.owner ≠ systemProgramId) := by
  intro a
  unfold systemAccountTryFromAccountInfo
  by_cases h : a.owner = systemProgramId <;> simp [h, Except.isOk, Except.toBool]

/-- C2 (counterexample): on a record passing the owner and length checks whose
seed check fails, Pda construction produces the trace
[castEvent, seedCheckEvent]: the record's bytes are reinterpreted by the
unchecked zero-copy cast strictly before the seed verification runs, and they
are reinterpreted even though the seed check then fails — refuting the claim
that the seed check runs strictly before any cast and that no bytes are
reinterpreted unless it succeeds. -/
theorem C2_cast_before_seed_check_counterexample :
    (pdaTryFromAccountView pdaC2Type pdaC2View ()).1 = [.castEvent, .seedCheckEvent]
    ∧ (pdaTryFromAccountView pdaC2Type pdaC2View ()).2 = .error .invalidAccount := by
  exact ⟨rfl, rfl⟩

/-- C2 (amended): in Pda construction the owner and length checks run first;
when they pass, the unchecked zero-copy cast of the record's bytes runs
strictly before the seed verification (the trace is always either empty or
exactly [castEvent, seedCheckEvent]), the cast occurs exactly when owner and
length are valid, and the Pda wrapper is produced iff the owner, length, and
seed checks all succeed — so a forged record never yields a wrapper, though
its bytes are cast before the seed check decides. -/
theorem C2_amended_cast_precedes_seed_check :
    ∀ (μ : Type) (T : PdaType μ) (view : AccountView) (meta : μ),
      ((pdaTryFromAccountView T view meta).1 = []
        ∨ (pdaTryFromAccountView T view meta).1 = [.castEvent, .seedCheckEvent])
      ∧ (PdaEv.castEvent ∈ (pdaTryFromAccountView T view meta).1 ↔
          (T.toZcType.owner = view.owner
            ∧ view.data.length = T.toZcType.discriminatedLen))
      ∧ ((pdaTryFromAccountView T view meta).2 = .ok () ↔
          (T.toZcType.owner = view.owner
            ∧ view.data.length = T.toZcType.discriminatedLen
            ∧ T.checkPdaSeeds (view.data.drop 8) view.address meta = .ok ())) := by
  intro μ T view meta
  unfold pdaTryFromAccountView tryDeserializeRawUncheckedTr
  by_cases howner : T.toZcType.owner = view.owner
  · by_cases hlen : view.data.length = T.toZcType.discriminatedLen
    · cases hseeds : T.checkPdaSeeds (view.data.drop 8) view.address meta <;>
        simp [howner, hlen, hseeds]
    · simp [howner, hlen]
  · simp [howner]

/-- C8: CpiCtx construction fails with IncorrectProgramId exactly when the
program record's address differs from T's declared target identifier, succeeds
otherwise, and the convenience constructors are extensionally equal to the
general one: try_new_without_signer p a = try_new p a None and
try_new_with_signer p a s = try_new p a (Some s). -/
theorem C8_cpi_ctx_characterization :
    ∀ (α σ : Type) (tid : Address) (p : AccountView) (a : α) (s : Option σ) (sg : σ),
      (cpiTryNew tid p a s = .error .incorrectProgramId ↔ p.address ≠ tid)
      ∧ ((cpiTryNew tid p a s).isOk ↔ p.address = tid)
      ∧ cpiTryNewWithoutSigner tid p a = cpiTryNew tid p a (none : Option σ)
      ∧ cpiTryNewWithSigner tid p a sg = cpiTryNew tid p a (some sg) := by
  intro α σ tid p a s sg
  unfold cpiTryNew cpiTryNewWithoutSigner cpiTryNewWithSigner
  by_cases h : p.address = tid <;> simp [h, Except.isOk, Except.toBool]

/-- C6: on an account list of length N, calling next() exactly N times
succeeds, returning the accounts in their original order; the (N+1)-th call
fails with InvalidAccount (no accounts remaining); and after k calls the
remaining subslice is exactly the N−k unconsumed accounts in original order
(the drop-k suffix, of length N−k). -/
theorem C6_account_iter_cursor :
    ∀ l : List AccountView,
      ((AccountIter.new l).runNext l.length).1 = l.map Except.ok
      ∧ (((AccountIter.new l).runNext l.length).2).next = .error .invalidAccount
      ∧ (∀ k : Nat, (((AccountIter.new l).runNext k).2).remaining = l.drop k)
      ∧ (∀ k : Nat, (((AccountIter.new l).runNext k).2).remainingLen = l.length - k) := by
  intro l
  refine ⟨?_, ?_, ?_, ?_⟩
  · show (runNextAux l.length ⟨l, 0⟩).1 = l.map Except.ok
    rw [runNextAux_in_bounds l l.length 0 (by omega)]
    simp
  · rw [runNext_final_pos]
    simp [AccountIter.next]
  · intro k
    rw [runNext_final_pos]
    show l.drop (min k l.length) = l.drop k
    by_cases hk : k ≤ l.length
    · rw [Nat.min_eq_left hk]
    · rw [Nat.min_eq_right (by omega), List.drop_eq_nil_of_le (le_refl _),
        Eq.comm]
      exact List.drop_eq_nil_of_le (by omega)
  · intro k
    rw [runNext_final_pos]
    show l.length - min k l.length = l.length - k
    omega

/-- The decode loop yields one value per declared field. -/
theorem decodeFields_length (bytes : List Byte) (total : Nat) :
    ∀ (shape : List FieldDesc) (off : Nat),
      (decodeFields bytes total shape off).length = shape.length := by
  intro shape
  induction shape with
  | nil => intro off; rfl
  | cons f rest ih =>
    intro off
    cases f <;> simp [decodeFields, ih]

/-- Splitting the decode loop after a slice-free field block: the offset after
the block is the block's fixed total. -/
theorem decodeFields_append_no_slice (bytes : List Byte) (total : Nat) :
    ∀ (pre rest : List FieldDesc) (off : Nat), hasSlice pre = false →
      decodeFields bytes total (pre ++ rest) off =
        decodeFields bytes total pre off ++
          decodeFields bytes total rest (off + fixedTotal pre) := by
  intro pre
  induction pre with
  | nil =>
    intro rest off _
    simp [decodeFields, fixedTotal]
  | cons f pre' ih =>
    intro rest off hslice
    cases f with
    | fixed n =>
      have h' : hasSlice pre' = false := by
        simpa [hasSlice] using hslice
      have harith : off + fixedTotal (FieldDesc.fixed n :: pre') =
          off + n + fixedTotal pre' := by
        simp [fixedTotal, fieldFixedSize]
        omega
      rw [List.cons_append]
      show (bytes.drop off).take n ::
          decodeFields bytes total (pre' ++ rest) (off + n) =
        ((bytes.drop off).take n :: decodeFields bytes total pre' (off + n)) ++
          decodeFields bytes total rest (off + fixedTotal (FieldDesc.fixed n :: pre'))
      rw [ih rest (off + n) h', harith]
      simp
    | slice =>
      simp [hasSlice] at hslice

/-- A shape containing a slice entry has a slice. -/
theorem hasSlice_of_mem_slice (pre post : List FieldDesc) :
    hasSlice (pre ++ FieldDesc.slice :: post) = true := by
  simp [hasSlice]

/-- C7 (counterexample): the derive accepts a record whose single
variable-length byte field is not trailing, such as the shape
[slice, fixed 1]. That record declares no trailing variable-length field (its
last field is fixed), yet its derived decode succeeds on an input of length 2,
which differs from its fixed-field sum 1 — refuting the claim that without a
trailing variable-length field the decode succeeds only on inputs of exactly
the fixed total, and showing the derive's one-slice limit is not a
trailing-position requirement. -/
theorem C7_non_trailing_slice_counterexample :
    c7Shape.getLast? = some (.fixed 1)
    ∧ sliceCount c7Shape = 1
    ∧ ([9, 9] : List Byte).length ≠ fixedTotal c7Shape
    ∧ decodeIx c7Shape [9, 9] = .ok [[9], [9]] := by
  exact ⟨rfl, rfl, by decide, rfl⟩

/-- C7 (amended): for every derived instruction-parameter decoder, if the
record declares no variable-length byte field, decode succeeds exactly when
the input length equals the sum of the fixed-field sizes and fails with
InvalidInstructionData otherwise; if it declares exactly one variable-length
byte field — in any position, not only trailing — decode succeeds exactly when
the input length is at least the fixed total, fails with
InvalidInstructionData when shorter, and the slice field receives exactly
input_length − fixed_total bytes starting at the offset reached at its
position (the sum of the preceding fixed sizes); at most one variable-length
field is permitted per record (the derive rejects a second one). -/
theorem C7_decode_ix_amended :
    ∀ (shape pre post : List FieldDesc) (bytes : List Byte),
      (hasSlice shape = false →
        (((decodeIx shape bytes).isOk ↔ bytes.length = fixedTotal shape)
          ∧ (bytes.length ≠ fixedTotal shape →
              decodeIx shape bytes = .error .invalidInstructionData)))
      ∧ (shape = pre ++ FieldDesc.slice :: post → hasSlice pre = false →
          (((decodeIx shape bytes).isOk ↔ fixedTotal shape ≤ bytes.length)
            ∧ (bytes.length < fixedTotal shape →
                decodeIx shape bytes = .error .invalidInstructionData)
            ∧ (fixedTotal shape ≤ bytes.length →
                ∃ vals, decodeIx shape bytes = .ok vals
                  ∧ vals[pre.length]? =
                      some ((bytes.drop (fixedTotal pre)).take
                        (bytes.length - fixedTotal shape))))) := by
  intro shape pre post bytes
  constructor
  · intro hns
    constructor
    · by_cases hlen : bytes.length = fixedTotal shape <;>
        simp [decodeIx, hns, hlen, Except.isOk, Except.toBool]
    · intro hlen
      simp [decodeIx, hns, hlen]
  · intro hshape hpre
    subst hshape
    have hs := hasSlice_of_mem_slice pre post
    refine ⟨?_, ?_, ?_⟩
    · by_cases hlen : bytes.length < fixedTotal (pre ++ FieldDesc.slice :: post)
      all_goals simp [decodeIx, hs, hlen, Except.isOk, Except.toBool]
      all_goals omega
    · intro hlen
      simp [decodeIx, hs, hlen]
    · intro hlen
      refine ⟨decodeFields bytes (fixedTotal (pre ++ FieldDesc.slice :: post))
        (pre ++ FieldDesc.slice :: post) 0, ?_, ?_⟩
      · simp [decodeIx, hs]
        omega
      · rw [decodeFields_append_no_slice bytes _ pre (FieldDesc.slice :: post) 0 hpre]
        rw [List.getElem?_append_right (by simp [decodeFields_length])]
        simp [decodeFields_length, decodeFields, Nat.zero_add]

/-- C4 (counterexample): on an empty instruction payload (shorter than 8
bytes) the expanded counter-program dispatcher fails with
InvalidInstructionData, which is not the UnknownInstruction error the claim
names for short payloads. -/
theorem C4_short_payload_counterexample :
    counterDispatcher (fun _ => .ok ()) (fun _ => .ok ()) counterProgramId [] =
      .error .invalidInstructionData
    ∧ Err.invalidInstructionData ≠ Err.unknownInstruction := by
  exact ⟨rfl, by decide⟩

/-- C4 (amended): every payload shorter than 8 bytes is rejected before any
discriminator matching or parameter decoding, but the two dispatchers in the
repository disagree on the error: the dispatch! macro of
crates/instruction-dispatch-macro fails with UnknownInstruction (for any arm
table), while the expanded counter-program dispatcher fails with
InvalidInstructionData (after its program-id check, here satisfied). -/
theorem C4_short_payload_amended :
    ∀ (arms : List DispatchArm) (kU kI : List (List Byte) → Except Err Unit)
      (ixData : List Byte), ixData.length < 8 →
      dispatchIxData arms ixData = .error .unknownInstruction
      ∧ counterDispatcher kU kI counterProgramId ixData =
          .error .invalidInstructionData := by
  intro arms kU kI ixData h
  constructor
  · simp [dispatchIxData, h]
  · simp [counterDispatcher, h]

/-- C4 (witness): the amended statement at the empty payload with an empty arm
table and trivial handlers. -/
theorem C4_short_payload_amended_witness :
    ([] : List Byte).length < 8
    ∧ (dispatchIxData [] [] = .error .unknownInstruction
        ∧ counterDispatcher (fun _ => .ok ()) (fun _ => .ok ()) counterProgramId [] =
            .error .invalidInstructionData) :=
  ⟨by decide, C4_short_payload_amended [] (fun _ => .ok ()) (fun _ => .ok ()) [] (by decide)⟩

/-- C7 (witness): the amended statement at the UpdateCounterIx shape (one u64
then the trailing slice) on a 10-byte input: decode succeeds and the slice
field receives the last 2 bytes, starting at offset 8. -/
theorem C7_decode_ix_amended_witness :
    updateCounterIxShape = [FieldDesc.fixed 8] ++ FieldDesc.slice :: []
    ∧ hasSlice [FieldDesc.fixed 8] = false
    ∧ fixedTotal updateCounterIxShape ≤ ([1, 2, 3, 4, 5, 6, 7, 8, 9, 9] : List Byte).length
    ∧ ∃ vals, decodeIx updateCounterIxShape [1, 2, 3, 4, 5, 6, 7, 8, 9, 9] = .ok vals
        ∧ vals[([FieldDesc.fixed 8] : List FieldDesc).length]? =
            some ((([1, 2, 3, 4, 5, 6, 7, 8, 9, 9] : List Byte).drop
                (fixedTotal [FieldDesc.fixed 8])).take
              (([1, 2, 3, 4, 5, 6, 7, 8, 9, 9] : List Byte).length -
                fixedTotal updateCounterIxShape)) :=
  ⟨by decide, by decide, by decide,
    ((C7_decode_ix_amended updateCounterIxShape [FieldDesc.fixed 8] []
      [1, 2, 3, 4, 5, 6, 7, 8, 9, 9]).2 (by decide) (by decide)).2.2 (by decide)⟩

/-- C9: initializing a zero-length record as T through the system-program
allocation primitive grows its buffer to exactly 8 + size T, writes T's
discriminator into bytes[0..8], assigns the requested owner, and returns the
typed view equal to T's zero value (size T zero bytes); a subsequent checked
decode of the updated record yields that same zero value when the record was
initialized under T's declared owner; and a second initialize on the updated
(now nonzero-length) record fails. -/
theorem C9_initialize_then_decode :
    ∀ (σ : Type) (T : ZcType) (target : AccountView) (init : InitAccounts)
      (signers : Option σ),
      target.data = [] →
      init.systemProgram.address = systemProgramId →
      init.ownerProgramId = T.owner →
      (tryInitializeZc T target init signers =
          .ok ({ target with
                  owner := T.owner
                  data := T.disc ++ List.replicate T.size 0 },
            List.replicate T.size 0))
      ∧ (T.disc ++ List.replicate T.size 0).length = 8 + T.size
      ∧ (T.disc ++ List.replicate T.size 0).take 8 = T.disc
      ∧ tryDeserializeZc T { target with
            owner := T.owner
            data := T.disc ++ List.replicate T.size 0 } =
          .ok (List.replicate T.size 0)
      ∧ tryInitializeZc T { target with
            owner := T.owner
            data := T.disc ++ List.replicate T.size 0 } init signers =
          .error .invalidAccountData := by
  intro σ T target init signers htarget hsys howner
  have hdisc := T.hdisc
  have hdrop : (T.disc ++ List.replicate T.size 0).drop 8 = List.replicate T.size 0 :=
    List.drop_left' hdisc
  have htake : (T.disc ++ List.replicate T.size 0).take 8 = T.disc :=
    List.take_left' hdisc
  have hlen : (T.disc ++ List.replicate T.size 0).length = 8 + T.size := by
    simp [hdisc]
  refine ⟨?_, hlen, htake, ?_, ?_⟩
  · simp [tryInitializeZc, cpiTryNew, createAccount, hsys, htarget, howner,
      ZcType.discriminatedLen, hdisc]
  · simp [tryDeserializeZc, ZcType.discriminatedLen, hlen, htake, hdrop]
  · simp [tryInitializeZc, cpiTryNew, createAccount, hsys, hlen,
      ZcType.discriminatedLen]

/-- C9 (witness): initializing the fresh concrete target as CounterAccount
yields the 16-byte tagged zero record, it decodes back to the zero value, and
a second initialize fails. -/
theorem C9_initialize_then_decode_witness :
    c9Target.data = []
    ∧ c9Init.systemProgram.address = systemProgramId
    ∧ c9Init.ownerProgramId = counterAccountType.owner
    ∧ ((tryInitializeZc (σ := Unit) counterAccountType c9Target c9Init none =
        .ok ({ c9Target with
                owner := counterAccountType.owner
                data := counterAccountType.disc ++ List.replicate counterAccountType.size 0 },
          List.replicate counterAccountType.size 0))
      ∧ (counterAccountType.disc ++ List.replicate counterAccountType.size 0).length =
          8 + counterAccountType.size
      ∧ (counterAccountType.disc ++ List.replicate counterAccountType.size 0).take 8 =
          counterAccountType.disc
      ∧ tryDeserializeZc counterAccountType { c9Target with
            owner := counterAccountType.owner
            data := counterAccountType.disc ++ List.replicate counterAccountType.size 0 } =
          .ok (List.replicate counterAccountType.size 0)
      ∧ tryInitializeZc (σ := Unit) counterAccountType { c9Target with
            owner := counterAccountType.owner
            data := counterAccountType.disc ++ List.replicate counterAccountType.size 0 }
          c9Init none =
          .error .invalidAccountData) :=
  ⟨rfl, rfl, rfl,
    C9_initialize_then_decode Unit counterAccountType c9Target c9Init none rfl rfl rfl⟩

end Hayabusa
